import Mathlib

/-!
Shallow embedding of the shared-whiteboard replication engine.

The repository contains two complete server variants:
* `src/server.js` — Redis pub/sub version: every node keeps a local cache
  (`let strokes = []`), a Redis channel carries typed events
  (`init-sync` / `draw` / `clear-all` / `clear-user`), and each node's
  subscriber applies the event to its cache and `io.emit`s to its own
  connected clients.  Modelled in namespace `PubSub`.
* `src/unnamed/part_000` — Socket.IO Redis-adapter version: no local cache;
  `io.emit` reaches all clients on all nodes through the adapter, and
  `socket.broadcast.emit` reaches all clients on all nodes except the
  originating socket.  Modelled in namespace `Adapter`.

Modelling conventions: the Redis list `whiteboard:strokes` is a
`List Stroke` (JSON stringify/parse is the identity round-trip on the
record model); bus publication delivers synchronously to every node, which
is the sequential semantics the claims quantify over; a stroke's drawing
geometry is an opaque `payload : String`.
-/

/-- A stroke record as persisted: `{ userId, ...payload fields }`.
The drawing geometry is opaque to the core. -/
structure Stroke where
  userId : String
  payload : String
deriving Repr, DecidableEq

/-- The client-supplied `draw` payload: opaque geometry plus an optional
`userId` field the client may try to smuggle in. -/
structure DrawData where
  userId : Option String
  payload : String
deriving Repr, DecidableEq

/-- `const stroke = { ...data, userId }` — object spread followed by an
explicit `userId` key, so the session's `userId` overrides any `userId`
field present in `data`. -/
def mkStroke (data : DrawData) (uid : String) : Stroke :=
  { userId := uid, payload := data.payload }

/-- One connected socket on a node: its transport id (`socket.id`) and the
per-connection `let userId = null` register state. -/
structure Client where
  cid : String
  userId : Option String
deriving Repr, DecidableEq

/-- Server→client push messages. -/
inductive ClientMsg where
  | userInfo (uid : String)
  | initBoard (board : List Stroke)
  | draw (s : Stroke)
  | clearAll
  | resetBoard (board : List Stroke)
deriving Repr, DecidableEq

/-- An emission: (target socket id, message). -/
abbrev Emit := String × ClientMsg

/-- JS `a?.userId || b`: the fallback fires when the field is absent or
falsy (the empty string is falsy). -/
def jsOr : Option String → String → String
  | none, d => d
  | some s, d => if s = "" then d else s

/-- `socket.id.slice(0, 5).toUpperCase()` — the node-generated short id:
the first five characters, each uppercased. -/
def deriveId (sid : String) : String :=
  String.mk ((sid.take 5).data.map Char.toUpper)

namespace PubSub

/-- One node of the pub/sub variant: its local stroke cache
(`let strokes = []`) and its connected sockets. -/
structure Node where
  cache : List Stroke
  clients : List Client
deriving Repr, DecidableEq

/-- Whole-system state: the Redis list and all nodes. -/
structure Sys where
  store : List Stroke
  nodes : List Node
deriving Repr, DecidableEq

/-- Messages on the `whiteboard-events` Redis channel. -/
inductive BusMsg where
  | initSync
  | draw (s : Stroke)
  | clearAll
  | clearUser (uid : String)
deriving Repr, DecidableEq

/-- `loadBoardFromRedis`: `lRange(key, 0, -1)` then parse each item. -/
def loadBoardFromRedis (sys : Sys) : List Stroke :=
  sys.store

/-- The per-node Redis subscriber (`redisSub.subscribe` handler): applies a
bus message to the node's cache and emits to this node's clients. -/
def handleBus (store : List Stroke) (m : BusMsg) (n : Node) :
    Node × List Emit :=
  match m with
  | BusMsg.initSync => ({ n with cache := store }, [])
  | BusMsg.draw s =>
      ({ n with cache := n.cache ++ [s] },
       n.clients.map (fun c => (c.cid, ClientMsg.draw s)))
  | BusMsg.clearAll =>
      ({ n with cache := [] },
       n.clients.map (fun c => (c.cid, ClientMsg.clearAll)))
  | BusMsg.clearUser uid =>
      let remaining := n.cache.filter (fun s => s.userId != uid)
      ({ n with cache := remaining },
       n.clients.map (fun c => (c.cid, ClientMsg.resetBoard remaining)))

/-- `redisClient.publish(REDIS_CHANNEL, ...)`: every node's subscriber
(including the publisher's own) processes the message. -/
def publish (sys : Sys) (m : BusMsg) : Sys × List Emit :=
  let rs := sys.nodes.map (handleBus sys.store m)
  ({ sys with nodes := rs.map Prod.fst }, (rs.map Prod.snd).flatten)

/-- The register state of connection `cid` on node `i`. -/
def sessionUid (sys : Sys) (i : Nat) (cid : String) : Option String :=
  match sys.nodes[i]? with
  | none => none
  | some n =>
      match n.clients.find? (fun c => c.cid == cid) with
      | none => none
      | some c => c.userId

/-- The `if (!userId) return;` guard: the command proceeds only when the
session's `userId` is set and truthy (non-empty). -/
def activeUid (sys : Sys) (i : Nat) (cid : String) : Option String :=
  match sessionUid sys i cid with
  | none => none
  | some u => if u = "" then none else some u

/-- The `register` handler: assign `userId = data?.userId || derived`,
emit `user-info`, then read the board fresh from Redis (never the local
cache) and emit `init-board`. -/
def registerStep (sys : Sys) (i : Nat) (cid : String)
    (supplied : Option String) : Sys × List Emit :=
  match sys.nodes[i]? with
  | none => (sys, [])
  | some n =>
      match n.clients.find? (fun c => c.cid == cid) with
      | none => (sys, [])
      | some _ =>
          let uid := jsOr supplied (deriveId cid)
          let n2 : Node :=
            { n with clients := n.clients.map (fun c =>
                if c.cid == cid then { c with userId := some uid } else c) }
          ({ sys with nodes := sys.nodes.set i n2 },
           [(cid, ClientMsg.userInfo uid),
            (cid, ClientMsg.initBoard (loadBoardFromRedis sys))])

/-- The awaited I/O calls of the `draw` handler, in source order. -/
inductive Effect where
  | storeAppend (s : Stroke)
  | busPublish (m : BusMsg)
deriving Repr, DecidableEq

/-- Run a handler's effect list in order.  `storeUp = false` models the
Redis store being unreachable: the awaited store call rejects and the
handler aborts, so no later effect in the list ever runs. -/
def runEffects (storeUp : Bool) :
    List Effect → Sys → Sys × List Emit × List BusMsg
  | [], sys => (sys, [], [])
  | Effect.storeAppend s :: rest, sys =>
      if storeUp then
        runEffects storeUp rest { sys with store := sys.store ++ [s] }
      else
        (sys, [], [])
  | Effect.busPublish m :: rest, sys =>
      let pr := publish sys m
      let r := runEffects storeUp rest pr.1
      (r.1, pr.2 ++ r.2.1, m :: r.2.2)

/-- The `draw` handler: guard, build the stroke, `rPush` to the Redis
list, then publish the `draw` event.  The third component records which
bus messages were actually published. -/
def drawRun (storeUp : Bool) (sys : Sys) (i : Nat) (cid : String)
    (data : DrawData) : Sys × List Emit × List BusMsg :=
  match activeUid sys i cid with
  | none => (sys, [], [])
  | some uid =>
      runEffects storeUp
        [Effect.storeAppend (mkStroke data uid),
         Effect.busPublish (BusMsg.draw (mkStroke data uid))] sys

/-- The `clear-all` handler: guard, `del` the Redis list, publish
`clear-all`. -/
def clearAllStep (sys : Sys) (i : Nat) (cid : String) : Sys × List Emit :=
  match activeUid sys i cid with
  | none => (sys, [])
  | some _ => publish { sys with store := [] } BusMsg.clearAll

/-- The `clear-mine` handler: guard, read the board, filter out this
user's strokes, `del` the list, `rPush` the remainder when non-empty,
publish `clear-user`. -/
def clearMineStep (sys : Sys) (i : Nat) (cid : String) : Sys × List Emit :=
  match activeUid sys i cid with
  | none => (sys, [])
  | some uid =>
      let board := loadBoardFromRedis sys
      let remaining := board.filter (fun s => s.userId != uid)
      let sys1 : Sys := { sys with store := [] }
      let sys2 : Sys :=
        if remaining.length > 0 then { sys1 with store := sys1.store ++ remaining }
        else sys1
      publish sys2 (BusMsg.clearUser uid)

/-- Client commands, each arriving on connection `cid` at node `i`. -/
inductive Op where
  | register (i : Nat) (cid : String) (supplied : Option String)
  | draw (i : Nat) (cid : String) (data : DrawData)
  | clearAll (i : Nat) (cid : String)
  | clearMine (i : Nat) (cid : String)
deriving Repr, DecidableEq

/-- Whether an operation is a `register` command. -/
def Op.isRegister : Op → Bool
  | Op.register _ _ _ => true
  | _ => false

/-- One sequential command step of the pub/sub server. -/
def step (sys : Sys) : Op → Sys × List Emit
  | Op.register i cid sup => registerStep sys i cid sup
  | Op.draw i cid data =>
      ((drawRun true sys i cid data).1, (drawRun true sys i cid data).2.1)
  | Op.clearAll i cid => clearAllStep sys i cid
  | Op.clearMine i cid => clearMineStep sys i cid

/-- Every node's local cache agrees with the Redis store — established at
startup by the `init-sync` event and preserved by every command. -/
def Synced (sys : Sys) : Prop :=
  ∀ n ∈ sys.nodes, n.cache = sys.store

end PubSub

namespace Adapter

/-- One node of the adapter variant: no local cache, just sockets. -/
structure Node where
  clients : List Client
deriving Repr, DecidableEq

/-- Whole-system state of the adapter variant. -/
structure Sys where
  store : List Stroke
  nodes : List Node
deriving Repr, DecidableEq

/-- `getFullBoard`: `lRange(key, 0, -1)` then parse each item. -/
def getFullBoard (sys : Sys) : List Stroke :=
  sys.store

/-- The register state of connection `cid` on node `i`. -/
def sessionUid (sys : Sys) (i : Nat) (cid : String) : Option String :=
  match sys.nodes[i]? with
  | none => none
  | some n =>
      match n.clients.find? (fun c => c.cid == cid) with
      | none => none
      | some c => c.userId

/-- The `if (!userId) return;` guard of the adapter variant. -/
def activeUid (sys : Sys) (i : Nat) (cid : String) : Option String :=
  match sessionUid sys i cid with
  | none => none
  | some u => if u = "" then none else some u

/-- `io.emit` through the Redis adapter: every client on every node. -/
def emitAll (sys : Sys) (m : ClientMsg) : List Emit :=
  (sys.nodes.map (fun n => n.clients.map (fun c => (c.cid, m)))).flatten

/-- `socket.broadcast.emit` through the Redis adapter: every client on
every node except the originating socket itself. -/
def broadcastFrom (sys : Sys) (origin : String) (m : ClientMsg) : List Emit :=
  (sys.nodes.map (fun n =>
    (n.clients.filter (fun c => c.cid != origin)).map (fun c => (c.cid, m)))).flatten

/-- The adapter variant's `register` handler. -/
def registerStep (sys : Sys) (i : Nat) (cid : String)
    (supplied : Option String) : Sys × List Emit :=
  match sys.nodes[i]? with
  | none => (sys, [])
  | some n =>
      match n.clients.find? (fun c => c.cid == cid) with
      | none => (sys, [])
      | some _ =>
          let uid := jsOr supplied (deriveId cid)
          let n2 : Node :=
            { clients := n.clients.map (fun c =>
                if c.cid == cid then { c with userId := some uid } else c) }
          ({ sys with nodes := sys.nodes.set i n2 },
           [(cid, ClientMsg.userInfo uid),
            (cid, ClientMsg.initBoard (getFullBoard sys))])

/-- The adapter variant's `draw` handler: guard, build the stroke,
`rPush`, then `socket.broadcast.emit("draw", stroke)` — all clients on
all nodes except the sender. -/
def drawStep (sys : Sys) (i : Nat) (cid : String) (data : DrawData) :
    Sys × List Emit :=
  match activeUid sys i cid with
  | none => (sys, [])
  | some uid =>
      let stroke := mkStroke data uid
      let sys1 : Sys := { sys with store := sys.store ++ [stroke] }
      (sys1, broadcastFrom sys1 cid (ClientMsg.draw stroke))

/-- The adapter variant's `clear-all` handler. -/
def clearAllStep (sys : Sys) (i : Nat) (cid : String) : Sys × List Emit :=
  match activeUid sys i cid with
  | none => (sys, [])
  | some _ =>
      let sys1 : Sys := { sys with store := [] }
      (sys1, emitAll sys1 ClientMsg.clearAll)

/-- The adapter variant's `clear-mine` handler: read, filter, `del`,
`rPush` the remainder when non-empty, `io.emit("reset-board", remaining)`. -/
def clearMineStep (sys : Sys) (i : Nat) (cid : String) : Sys × List Emit :=
  match activeUid sys i cid with
  | none => (sys, [])
  | some uid =>
      let strokes := getFullBoard sys
      let remaining := strokes.filter (fun s => s.userId != uid)
      let sys1 : Sys := { sys with store := [] }
      let sys2 : Sys :=
        if remaining.length > 0 then { sys1 with store := sys1.store ++ remaining }
        else sys1
      (sys2, emitAll sys2 (ClientMsg.resetBoard remaining))

/-- One sequential command step of the adapter server. -/
def step (sys : Sys) : PubSub.Op → Sys × List Emit
  | PubSub.Op.register i cid sup => registerStep sys i cid sup
  | PubSub.Op.draw i cid data => drawStep sys i cid data
  | PubSub.Op.clearAll i cid => clearAllStep sys i cid
  | PubSub.Op.clearMine i cid => clearMineStep sys i cid

end Adapter

open PubSub

/-! ### Concrete states used by the witnesses -/

/-- The three example strokes of the spec's clear-mine property. -/
def stA : Stroke := { userId := "u1", payload := "A" }

/-- Second example stroke. -/
def stB : Stroke := { userId := "u2", payload := "B" }

/-- Third example stroke. -/
def stC : Stroke := { userId := "u1", payload := "C" }

/-- A two-node system, fully synced, with registered sessions `u1`, `u2`
on node 0 and `u3` on node 1, holding the example board `[A, B, C]`. -/
def wsysR : Sys :=
  { store := [stA, stB, stC],
    nodes :=
      [ { cache := [stA, stB, stC],
          clients := [ { cid := "sockab", userId := some "u1" },
                       { cid := "sockcd", userId := some "u2" } ] },
        { cache := [stA, stB, stC],
          clients := [ { cid := "sockee", userId := some "u3" } ] } ] }

/-- A one-node system with an unregistered connection and a local cache
that deliberately disagrees with the store. -/
def wsysU : Sys :=
  { store := [stB],
    nodes :=
      [ { cache := [stA],
          clients := [ { cid := "sockab", userId := none } ] } ] }


/-- A one-node system with a single fresh (unregistered) connection. -/
def wsysF : Sys :=
  { store := [],
    nodes := [ { cache := [], clients := [ { cid := "sockab", userId := none } ] } ] }

/-- A concrete two-node system for the adapter variant, with registered
sessions `u1`, `u2` on node 0 and `u3` on node 1. -/
def wasys : Adapter.Sys :=
  { store := [],
    nodes :=
      [ { clients := [ { cid := "sockab", userId := some "u1" },
                       { cid := "sockcd", userId := some "u2" } ] },
        { clients := [ { cid := "sockee", userId := some "u3" } ] } ] }

/-! ### Reduction lemmas for the pub/sub handlers -/

/-- An indexed node is a member of the node list. -/
lemma node_mem_of_index {sys : Sys} {i : Nat} {n : Node}
    (h : sys.nodes[i]? = some n) : n ∈ sys.nodes := by
  obtain ⟨hlt, rfl⟩ := List.getElem?_eq_some.mp h
  exact List.getElem_mem hlt

/-- Replacing the store and mapping a clients-preserving function over the
nodes does not change any session's register state. -/
lemma sessionUid_map_nodes (g : Node → Node) {sys : Sys} {st : List Stroke}
    (hg : ∀ n, (g n).clients = n.clients) (i : Nat) (cid : String) :
    sessionUid { store := st, nodes := sys.nodes.map g } i cid
      = sessionUid sys i cid := by
  unfold sessionUid
  cases h : sys.nodes[i]? with
  | none => simp [List.getElem?_map, h]
  | some n => simp [List.getElem?_map, h, hg]

/-- `activeUid` version of `sessionUid_map_nodes`. -/
lemma activeUid_map_nodes (g : Node → Node) {sys : Sys} {st : List Stroke}
    (hg : ∀ n, (g n).clients = n.clients) (i : Nat) (cid : String) :
    activeUid { store := st, nodes := sys.nodes.map g } i cid
      = activeUid sys i cid := by
  unfold activeUid
  rw [sessionUid_map_nodes g hg]

/-- A successful `draw` by an active session: the stroke goes to the tail
of the store, every node's cache appends it, every client of every node is
sent a `draw` message, and exactly one `draw` bus event is published. -/
lemma drawRun_ok {sys : Sys} {i : Nat} {cid : String} {u : String}
    (data : DrawData) (hu : activeUid sys i cid = some u) :
    drawRun true sys i cid data =
      ({ store := sys.store ++ [mkStroke data u],
         nodes := sys.nodes.map (fun n =>
           { n with cache := n.cache ++ [mkStroke data u] }) },
       (sys.nodes.map (fun n => n.clients.map (fun c =>
           (c.cid, ClientMsg.draw (mkStroke data u))))).flatten,
       [BusMsg.draw (mkStroke data u)]) := by
  simp [drawRun, hu, runEffects, publish, handleBus, List.map_map,
    Function.comp_def]

/-- A `clear-all` by an active session empties the store and every cache
and sends `clear-all` to every client of every node. -/
lemma clearAllStep_ok {sys : Sys} {i : Nat} {cid : String} {u : String}
    (hu : activeUid sys i cid = some u) :
    clearAllStep sys i cid =
      ({ store := [], nodes := sys.nodes.map (fun n => { n with cache := [] }) },
       (sys.nodes.map (fun n => n.clients.map (fun c =>
           (c.cid, ClientMsg.clearAll)))).flatten) := by
  simp [clearAllStep, hu, publish, handleBus, List.map_map, Function.comp_def]

/-- A `clear-mine` by an active session `u`: the store keeps exactly the
strokes of other users, each node filters its own cache, and each node
sends its clients `reset-board` with its own filtered cache. -/
lemma clearMineStep_ok {sys : Sys} {i : Nat} {cid : String} {u : String}
    (hu : activeUid sys i cid = some u) :
    clearMineStep sys i cid =
      ({ store := sys.store.filter (fun s => s.userId != u),
         nodes := sys.nodes.map (fun n =>
           { n with cache := n.cache.filter (fun s => s.userId != u) }) },
       (sys.nodes.map (fun n => n.clients.map (fun c =>
           (c.cid, ClientMsg.resetBoard
             (n.cache.filter (fun s => s.userId != u)))))).flatten) := by
  by_cases hrem : sys.store.filter (fun s => s.userId != u) = []
  · simp [clearMineStep, hu, loadBoardFromRedis, hrem, publish, handleBus,
      List.map_map, Function.comp_def]
  · have hlen : 0 < (sys.store.filter (fun s => s.userId != u)).length :=
      List.length_pos.mpr hrem
    simp [clearMineStep, hu, loadBoardFromRedis, hlen, publish, handleBus,
      List.map_map, Function.comp_def]

/-! ### The cache/store agreement invariant -/

/-- The startup `init-sync` event reconciles every node's cache with the
store, establishing `Synced`. -/
lemma synced_after_initSync (sys : Sys) :
    Synced (publish sys BusMsg.initSync).1 := by
  intro n hn
  simp only [publish, handleBus, List.map_map, Function.comp_def] at hn ⊢
  obtain ⟨m, _, rfl⟩ := List.mem_map.mp hn
  rfl

/-- Every client command preserves cache/store agreement: a system whose
nodes all agree with the store still agrees after any `register`, `draw`,
`clear-all` or `clear-mine`. -/
lemma synced_step (sys : Sys) (op : Op) (h : Synced sys) :
    Synced (step sys op).1 := by
  cases op with
  | register i cid sup =>
      cases hn : sys.nodes[i]? with
      | none => simpa [step, registerStep, hn] using h
      | some n =>
          cases hc : n.clients.find? (fun c => c.cid == cid) with
          | none => simpa [step, registerStep, hn, hc] using h
          | some c =>
              simp only [step, registerStep, hn, hc]
              intro m hm
              dsimp only at hm ⊢
              rcases List.mem_or_eq_of_mem_set hm with hmem | rfl
              · exact h m hmem
              · exact h n (node_mem_of_index hn)
  | draw i cid data =>
      cases hu : activeUid sys i cid with
      | none => simp [step, drawRun, hu]; exact h
      | some u =>
          simp only [step, drawRun_ok data hu]
          intro m hm
          obtain ⟨n, hn, rfl⟩ := List.mem_map.mp hm
          simp [h n hn]
  | clearAll i cid =>
      cases hu : activeUid sys i cid with
      | none => simp [step, clearAllStep, hu]; exact h
      | some u =>
          simp only [step, clearAllStep_ok hu]
          intro m hm
          obtain ⟨n, hn, rfl⟩ := List.mem_map.mp hm
          rfl
  | clearMine i cid =>
      cases hu : activeUid sys i cid with
      | none => simp [step, clearMineStep, hu]; exact h
      | some u =>
          simp only [step, clearMineStep_ok hu]
          intro m hm
          obtain ⟨n, hn, rfl⟩ := List.mem_map.mp hm
          simp [h n hn]

/-- State effect of a successful `draw` at the `step` level. -/
lemma step_draw_ok {sys : Sys} {i : Nat} {cid : String} {u : String}
    (data : DrawData) (hu : activeUid sys i cid = some u) :
    (step sys (Op.draw i cid data)).1 =
      { store := sys.store ++ [mkStroke data u],
        nodes := sys.nodes.map (fun n =>
          { n with cache := n.cache ++ [mkStroke data u] }) } := by
  simp [step, drawRun_ok data hu]

/-- A `draw` step never changes any session's guard state. -/
lemma activeUid_step_draw {sys : Sys} {i : Nat} {cid : String}
    (data : DrawData) (j : Nat) (c : String) :
    activeUid (step sys (Op.draw i cid data)).1 j c = activeUid sys j c := by
  cases hu : activeUid sys i cid with
  | none => simp [step, drawRun, hu]
  | some u =>
      rw [step_draw_ok data hu]
      exact activeUid_map_nodes
        (fun n => { n with cache := n.cache ++ [mkStroke data u] })
        (fun n => rfl) j c

/-! ### Claim theorems -/

/-- Claim C1: whatever the prior history and whatever the serving node's
local cache holds, a `register` answers with `user-info` followed by an
`init-board` equal to the Store's contents at the moment of the read. -/
theorem claim_register_bootstrap (sys : Sys) (i : Nat) (cid : String)
    (supplied : Option String) (n : Node) (c : Client)
    (hn : sys.nodes[i]? = some n)
    (hc : n.clients.find? (fun x => x.cid == cid) = some c) :
    (step sys (Op.register i cid supplied)).2 =
      [(cid, ClientMsg.userInfo (jsOr supplied (deriveId cid))),
       (cid, ClientMsg.initBoard sys.store)] := by
  simp [step, registerStep, hn, hc, loadBoardFromRedis]

/-- Witness for C1: a node whose cache `[stA]` disagrees with the store
`[stB]` still serves `init-board [stB]`. -/
theorem claim_register_bootstrap_witness :
    (step wsysU (Op.register 0 "sockab" (some "alice"))).2 =
      [("sockab", ClientMsg.userInfo (jsOr (some "alice") (deriveId "sockab"))),
       ("sockab", ClientMsg.initBoard wsysU.store)] :=
  claim_register_bootstrap wsysU 0 "sockab" (some "alice")
    { cache := [stA], clients := [{ cid := "sockab", userId := none }] }
    { cid := "sockab", userId := none } (by rfl) (by rfl)

/-- Claim C3: when the Store append fails, the `draw` handler aborts with
no bus publication, no client emission and no state change; on success the
append lands before the single `draw` bus event is published. -/
theorem claim_draw_write_before_publish (sys : Sys) (i : Nat) (cid : String)
    (u : String) (data : DrawData) (hu : activeUid sys i cid = some u) :
    drawRun false sys i cid data = (sys, [], []) ∧
    (drawRun true sys i cid data).1.store = sys.store ++ [mkStroke data u] ∧
    (drawRun true sys i cid data).2.2 = [BusMsg.draw (mkStroke data u)] := by
  refine ⟨?_, ?_, ?_⟩
  · simp [drawRun, hu, runEffects]
  · simp [drawRun_ok data hu]
  · simp [drawRun_ok data hu]

/-- Witness for C3 at a concrete registered session. -/
theorem claim_draw_write_before_publish_witness :
    drawRun false wsysR 0 "sockab" { userId := none, payload := "D" }
        = (wsysR, [], []) ∧
    (drawRun true wsysR 0 "sockab" { userId := none, payload := "D" }).1.store
        = wsysR.store ++ [mkStroke { userId := none, payload := "D" } "u1"] ∧
    (drawRun true wsysR 0 "sockab" { userId := none, payload := "D" }).2.2
        = [BusMsg.draw (mkStroke { userId := none, payload := "D" } "u1")] :=
  claim_draw_write_before_publish wsysR 0 "sockab" "u1"
    { userId := none, payload := "D" } (by rfl)

/-- Claim C5: three consecutive `draw`s by registered sessions append
their strokes at the tail in command order, and a full read returns them
in exactly that order. -/
theorem claim_append_order (sys : Sys) (i1 i2 i3 : Nat)
    (c1 c2 c3 u1 u2 u3 : String) (d1 d2 d3 : DrawData)
    (h1 : activeUid sys i1 c1 = some u1)
    (h2 : activeUid sys i2 c2 = some u2)
    (h3 : activeUid sys i3 c3 = some u3) :
    loadBoardFromRedis
        (step (step (step sys (Op.draw i1 c1 d1)).1 (Op.draw i2 c2 d2)).1
          (Op.draw i3 c3 d3)).1
      = loadBoardFromRedis sys
          ++ [mkStroke d1 u1, mkStroke d2 u2, mkStroke d3 u3] := by
  have h2s : activeUid (step sys (Op.draw i1 c1 d1)).1 i2 c2 = some u2 := by
    rw [activeUid_step_draw]; exact h2
  have h3s : activeUid
      (step (step sys (Op.draw i1 c1 d1)).1 (Op.draw i2 c2 d2)).1 i3 c3
        = some u3 := by
    rw [activeUid_step_draw, activeUid_step_draw]; exact h3
  have g1 := step_draw_ok d1 h1
  have g2 := step_draw_ok d2 h2s
  have g3 := step_draw_ok d3 h3s
  unfold loadBoardFromRedis
  rw [g3, g2, g1]
  simp [List.append_assoc]

/-- Witness for C5: drawing `A`, `B`, `C` from the empty board leaves the
store reading exactly `[A, B, C]`. -/
theorem claim_append_order_witness :
    loadBoardFromRedis
        (step (step (step wsysR (Op.draw 0 "sockab" { userId := none, payload := "A" })).1
            (Op.draw 0 "sockcd" { userId := none, payload := "B" })).1
          (Op.draw 1 "sockee" { userId := none, payload := "C" })).1
      = loadBoardFromRedis wsysR
          ++ [mkStroke { userId := none, payload := "A" } "u1",
              mkStroke { userId := none, payload := "B" } "u2",
              mkStroke { userId := none, payload := "C" } "u3"] :=
  claim_append_order wsysR 0 0 1 "sockab" "sockcd" "sockee" "u1" "u2" "u3"
    { userId := none, payload := "A" } { userId := none, payload := "B" }
    { userId := none, payload := "C" } (by rfl) (by rfl) (by rfl)

/-- Claim C7: a `draw`, `clear-all` or `clear-mine` arriving before
`register` is silently ignored — same state, no emissions, no bus event,
no error. -/
theorem claim_unregistered_ignored (sys : Sys) (i : Nat) (cid : String)
    (data : DrawData) (hu : sessionUid sys i cid = none) :
    step sys (Op.draw i cid data) = (sys, []) ∧
    step sys (Op.clearAll i cid) = (sys, []) ∧
    step sys (Op.clearMine i cid) = (sys, []) ∧
    drawRun true sys i cid data = (sys, [], []) := by
  have ha : activeUid sys i cid = none := by simp [activeUid, hu]
  exact ⟨by simp [step, drawRun, ha], by simp [step, clearAllStep, ha],
         by simp [step, clearMineStep, ha], by simp [drawRun, ha]⟩

/-- Witness for C7 on the unregistered connection of `wsysU`. -/
theorem claim_unregistered_ignored_witness :
    step wsysU (Op.draw 0 "sockab" { userId := none, payload := "X" })
        = (wsysU, []) ∧
    step wsysU (Op.clearAll 0 "sockab") = (wsysU, []) ∧
    step wsysU (Op.clearMine 0 "sockab") = (wsysU, []) ∧
    drawRun true wsysU 0 "sockab" { userId := none, payload := "X" }
        = (wsysU, [], []) :=
  claim_unregistered_ignored wsysU 0 "sockab"
    { userId := none, payload := "X" } (by rfl)

/-- Claim C10: the stroke persisted and published by `draw` carries the
session's registered `userId`, overriding any `userId` field the client
put in the payload. -/
theorem claim_draw_identity_override (sys : Sys) (i : Nat) (cid : String)
    (u v : String) (data : DrawData)
    (hu : activeUid sys i cid = some u)
    (_hv : data.userId = some v) :
    (step sys (Op.draw i cid data)).1.store
      = sys.store ++ [{ userId := u, payload := data.payload }] ∧
    (drawRun true sys i cid data).2.2
      = [BusMsg.draw { userId := u, payload := data.payload }] ∧
    (mkStroke data u).userId = u := by
  refine ⟨?_, ?_, rfl⟩
  · simp [step_draw_ok data hu, mkStroke]
  · simp [drawRun_ok data hu, mkStroke]

/-- Witness for C10: the payload claims to be `mallory`, the stored and
published stroke is attributed to the session's `u1`. -/
theorem claim_draw_identity_override_witness :
    (step wsysR (Op.draw 0 "sockab"
        { userId := some "mallory", payload := "D" })).1.store
      = wsysR.store ++ [{ userId := "u1", payload := "D" }] ∧
    (drawRun true wsysR 0 "sockab"
        { userId := some "mallory", payload := "D" }).2.2
      = [BusMsg.draw { userId := "u1", payload := "D" }] ∧
    (mkStroke { userId := some "mallory", payload := "D" } "u1").userId
      = "u1" :=
  claim_draw_identity_override wsysR 0 "sockab" "u1" "mallory"
    { userId := some "mallory", payload := "D" } (by rfl) (by rfl)

/-- Claim C9: `clear-all` is idempotent — running it twice from any state
leaves the same system state as running it once, and that state has an
empty store and an empty cache (hence empty client-visible board) on
every node. -/
theorem claim_clearAll_idempotent (sys : Sys) (i : Nat) (cid : String)
    (u : String) (hu : activeUid sys i cid = some u) :
    (step (step sys (Op.clearAll i cid)).1 (Op.clearAll i cid)).1
      = (step sys (Op.clearAll i cid)).1 ∧
    (step sys (Op.clearAll i cid)).1.store = [] ∧
    ∀ n ∈ (step sys (Op.clearAll i cid)).1.nodes, n.cache = [] := by
  simp only [step]
  have e1 : (clearAllStep sys i cid).1
      = { store := [],
          nodes := sys.nodes.map (fun n => { n with cache := [] }) } := by
    simp [clearAllStep_ok hu]
  have hu2 : activeUid (clearAllStep sys i cid).1 i cid = some u := by
    rw [e1, activeUid_map_nodes (fun n => { n with cache := [] })
      (fun n => rfl)]
    exact hu
  refine ⟨?_, ?_, ?_⟩
  · have e2 : (clearAllStep (clearAllStep sys i cid).1 i cid).1
        = { store := [],
            nodes := (clearAllStep sys i cid).1.nodes.map
              (fun n => { n with cache := [] }) } := by
      simp [clearAllStep_ok hu2]
    rw [e2, e1]
    simp only [List.map_map]
    exact congrArg (Sys.mk []) (List.map_congr_left (fun n _ => rfl))
  · rw [e1]
  · rw [e1]
    intro n hn
    obtain ⟨m, _, rfl⟩ := List.mem_map.mp hn
    rfl

/-- Witness for C9 at the concrete board `[A, B, C]`. -/
theorem claim_clearAll_idempotent_witness :
    (step (step wsysR (Op.clearAll 0 "sockab")).1 (Op.clearAll 0 "sockab")).1
      = (step wsysR (Op.clearAll 0 "sockab")).1 ∧
    (step wsysR (Op.clearAll 0 "sockab")).1.store = [] ∧
    ∀ n ∈ (step wsysR (Op.clearAll 0 "sockab")).1.nodes, n.cache = [] :=
  claim_clearAll_idempotent wsysR 0 "sockab" "u1" (by rfl)

/-- Claim C2: on a synced system, `clear-mine` by the registered user `u`
leaves the store holding exactly the prior board with `u`'s strokes
filtered out, in order, and sends every client of every node `reset-board`
with exactly that remainder. -/
theorem claim_clearMine_filter (sys : Sys) (i : Nat) (cid : String)
    (u : String) (hsync : Synced sys) (hu : sessionUid sys i cid = some u)
    (hne : u ≠ "") :
    (step sys (Op.clearMine i cid)).1.store
      = sys.store.filter (fun s => s.userId != u) ∧
    (step sys (Op.clearMine i cid)).2
      = (sys.nodes.map (fun n => n.clients.map (fun c =>
          (c.cid, ClientMsg.resetBoard
            (sys.store.filter (fun s => s.userId != u)))))).flatten := by
  have ha : activeUid sys i cid = some u := by
    simp [activeUid, hu, hne]
  refine ⟨?_, ?_⟩
  · simp [step, clearMineStep_ok ha]
  · simp only [step, clearMineStep_ok ha]
    congr 1
    exact List.map_congr_left (fun n hn => by rw [hsync n hn])

/-- Witness for C2: from `[{u1,A}, {u2,B}, {u1,C}]`, `clear-mine` by `u1`
leaves `[{u2,B}]` and every client on both nodes gets `reset-board`
with exactly `[{u2,B}]`. -/
theorem claim_clearMine_filter_witness :
    (step wsysR (Op.clearMine 0 "sockab")).1.store = [stB] ∧
    (step wsysR (Op.clearMine 0 "sockab")).2 =
      [("sockab", ClientMsg.resetBoard [stB]),
       ("sockcd", ClientMsg.resetBoard [stB]),
       ("sockee", ClientMsg.resetBoard [stB])] := by
  have h := claim_clearMine_filter wsysR 0 "sockab" "u1"
    (by unfold Synced; decide) (by rfl) (by decide)
  exact ⟨h.1.trans (by decide), h.2.trans (by decide)⟩

/-- Claim C6 counterexample: the register handler re-runs on a second
`register` command and rebinds the session's identity — `alice` becomes
`bob` on the same connection. -/
theorem claim_userId_stability_counterexample :
    sessionUid (step wsysF (Op.register 0 "sockab" (some "alice"))).1
        0 "sockab" = some "alice" ∧
    sessionUid (step (step wsysF (Op.register 0 "sockab" (some "alice"))).1
        (Op.register 0 "sockab" (some "bob"))).1 0 "sockab" = some "bob" ∧
    ("alice" : String) ≠ "bob" := by
  refine ⟨by decide, by decide, by decide⟩

/-- Claim C6 (amended): the bound identity is stable under every later
`draw`, `clear-all` or `clear-mine` command — only a repeated `register`
can rebind it. -/
theorem claim_userId_stable_nonregister (sys : Sys) (op : Op)
    (hop : op.isRegister = false) (i : Nat) (cid : String) :
    sessionUid (step sys op).1 i cid = sessionUid sys i cid := by
  cases op with
  | register j c s => simp [Op.isRegister] at hop
  | draw j c d =>
      cases hu : activeUid sys j c with
      | none => simp [step, drawRun, hu]
      | some u =>
          rw [step_draw_ok d hu]
          exact sessionUid_map_nodes
            (fun n => { n with cache := n.cache ++ [mkStroke d u] })
            (fun n => rfl) i cid
  | clearAll j c =>
      cases hu : activeUid sys j c with
      | none => simp [step, clearAllStep, hu]
      | some u =>
          simp only [step, clearAllStep_ok hu]
          exact sessionUid_map_nodes (fun n => { n with cache := [] })
            (fun n => rfl) i cid
  | clearMine j c =>
      cases hu : activeUid sys j c with
      | none => simp [step, clearMineStep, hu]
      | some u =>
          simp only [step, clearMineStep_ok hu]
          exact sessionUid_map_nodes
            (fun n => { n with cache := n.cache.filter (fun s => s.userId != u) })
            (fun n => rfl) i cid

/-- Witness for the amended C6 at a concrete non-register command. -/
theorem claim_userId_stable_nonregister_witness :
    sessionUid (step wsysR (Op.clearMine 0 "sockab")).1 0 "sockcd"
      = sessionUid wsysR 0 "sockcd" :=
  claim_userId_stable_nonregister wsysR (Op.clearMine 0 "sockab")
    (by decide) 0 "sockcd"

/-- Claim C8 counterexample: the payload `{userId: ""}` supplies an id,
yet JS `||` treats it as falsy, so the assigned id is the derived
`SOCKA`, not the supplied empty string. -/
theorem claim_register_id_counterexample :
    (step wsysU (Op.register 0 "sockab" (some ""))).2 =
      [("sockab", ClientMsg.userInfo "SOCKA"),
       ("sockab", ClientMsg.initBoard [stB])] ∧
    sessionUid (step wsysU (Op.register 0 "sockab" (some ""))).1 0 "sockab"
      = some "SOCKA" ∧
    ("SOCKA" : String) ≠ "" := by
  refine ⟨by decide, by decide, by decide⟩

/-- After `register`, the target connection's record holds the assigned
id: `find?` over the updated client list returns the updated record. -/
lemma find?_assign (cid uid : String) (l : List Client) (c : Client)
    (hc : l.find? (fun x => x.cid == cid) = some c) :
    (l.map (fun x =>
        if x.cid == cid then { x with userId := some uid } else x)).find?
      (fun x => x.cid == cid) = some { c with userId := some uid } := by
  induction l with
  | nil => simp at hc
  | cons a l ih =>
      by_cases ha : (a.cid == cid) = true
      · have hfa : List.find? (fun x => x.cid == cid) (a :: l) = some a :=
          @List.find?_cons_of_pos Client (fun x => x.cid == cid) a l ha
        have hac : a = c := Option.some.inj (hfa.symm.trans hc)
        subst hac
        simp only [List.map_cons, if_pos ha]
        exact @List.find?_cons_of_pos Client (fun x => x.cid == cid)
          { cid := a.cid, userId := some uid } _ ha
      · have hfa : List.find? (fun x => x.cid == cid) (a :: l)
            = List.find? (fun x => x.cid == cid) l :=
          @List.find?_cons_of_neg Client (fun x => x.cid == cid) a l ha
        have hc2 : List.find? (fun x => x.cid == cid) l = some c :=
          hfa.symm.trans hc
        simp only [List.map_cons, if_neg ha]
        rw [@List.find?_cons_of_neg Client (fun x => x.cid == cid) a _ ha]
        exact ih hc2

/-- Claim C8 (amended): `register` assigns the client-supplied id exactly
when it is present and non-empty (JS-truthy); when it is absent or the
empty string the assigned id is the first five characters of the socket
id, uppercased.  The assigned id is emitted in `user-info` before
`init-board`, and is the id the session is left bound to. -/
theorem claim_register_id_assignment (sys : Sys) (i : Nat) (cid : String)
    (supplied : Option String) (n : Node) (c : Client)
    (hn : sys.nodes[i]? = some n)
    (hc : n.clients.find? (fun x => x.cid == cid) = some c) :
    (step sys (Op.register i cid supplied)).2 =
      [(cid, ClientMsg.userInfo (jsOr supplied (deriveId cid))),
       (cid, ClientMsg.initBoard sys.store)] ∧
    (∀ s, s ≠ "" → jsOr (some s) (deriveId cid) = s) ∧
    jsOr none (deriveId cid) = deriveId cid ∧
    jsOr (some "") (deriveId cid) = deriveId cid ∧
    sessionUid (step sys (Op.register i cid supplied)).1 i cid
      = some (jsOr supplied (deriveId cid)) := by
  refine ⟨by simp [step, registerStep, hn, hc, loadBoardFromRedis],
    fun s hs => by simp [jsOr, hs], rfl, by simp [jsOr], ?_⟩
  simp only [step, registerStep, hn, hc]
  unfold sessionUid
  have hlt : i < sys.nodes.length := by
    rcases List.getElem?_eq_some.mp hn with ⟨hlt, _⟩
    exact hlt
  rw [show (List.length sys.nodes) = (List.length (sys.nodes)) from rfl] at hlt
  simp only
  rw [List.getElem?_set_self (by simpa using hlt)]
  simp only
  rw [find?_assign cid (jsOr supplied (deriveId cid)) n.clients c hc]

/-- Witness for the amended C8: a supplied non-empty id `carol` is
assigned verbatim and bound; the derived fallback is `SOCKA`. -/
theorem claim_register_id_assignment_witness :
    ((step wsysF (Op.register 0 "sockab" (some "carol"))).2 =
      [("sockab", ClientMsg.userInfo (jsOr (some "carol") (deriveId "sockab"))),
       ("sockab", ClientMsg.initBoard wsysF.store)] ∧
    (∀ s, s ≠ "" → jsOr (some s) (deriveId "sockab") = s) ∧
    jsOr none (deriveId "sockab") = deriveId "sockab" ∧
    jsOr (some "") (deriveId "sockab") = deriveId "sockab" ∧
    sessionUid (step wsysF (Op.register 0 "sockab" (some "carol"))).1
        0 "sockab"
      = some (jsOr (some "carol") (deriveId "sockab"))) :=
  claim_register_id_assignment wsysF 0 "sockab" (some "carol")
    { cache := [], clients := [ { cid := "sockab", userId := none } ] }
    { cid := "sockab", userId := none } (by rfl) (by rfl)

/-- Claim C4 counterexample: in the adapter variant
(`socket.broadcast.emit`), the originating socket `sockab` is itself a
connected client of its node, yet the `draw` is delivered to every client
except it — so the stroke is not pushed to all clients of each node. -/
theorem claim_draw_fanout_counterexample :
    (∃ n ∈ wasys.nodes, ∃ c ∈ n.clients, c.cid = "sockab") ∧
    (Adapter.step wasys (Op.draw 0 "sockab"
        { userId := none, payload := "A" })).2
      = [("sockcd", ClientMsg.draw { userId := "u1", payload := "A" }),
         ("sockee", ClientMsg.draw { userId := "u1", payload := "A" })] ∧
    ∀ m ∈ (Adapter.step wasys (Op.draw 0 "sockab"
        { userId := none, payload := "A" })).2, m.1 ≠ "sockab" := by
  refine ⟨by decide, by decide, by decide⟩

/-- Claim C4 (amended): a registered `draw` fans out across nodes without
reconnecting, but the delivery set depends on the variant: the pub/sub
server pushes the stroke to every client of every node, the originator
included; the adapter server pushes it to every client of every node
except the originating socket itself. -/
theorem claim_draw_fanout (sys : Sys) (asys : Adapter.Sys) (i j : Nat)
    (cid acid u au : String) (data adata : DrawData)
    (hu : activeUid sys i cid = some u)
    (hau : Adapter.activeUid asys j acid = some au) :
    (step sys (Op.draw i cid data)).2
      = (sys.nodes.map (fun n => n.clients.map (fun c =>
          (c.cid, ClientMsg.draw (mkStroke data u))))).flatten ∧
    (Adapter.step asys (Op.draw j acid adata)).2
      = (asys.nodes.map (fun n =>
          (n.clients.filter (fun c => c.cid != acid)).map (fun c =>
            (c.cid, ClientMsg.draw (mkStroke adata au))))).flatten := by
  refine ⟨?_, ?_⟩
  · simp [step, drawRun_ok data hu]
  · simp [Adapter.step, Adapter.drawStep, hau, Adapter.broadcastFrom]

/-- Witness for the amended C4: the pub/sub delivery includes the
originator `sockab`, the adapter delivery is everyone but the
originator. -/
theorem claim_draw_fanout_witness :
    ((step wsysR (Op.draw 0 "sockab" { userId := none, payload := "A" })).2
      = (wsysR.nodes.map (fun n => n.clients.map (fun c =>
          (c.cid, ClientMsg.draw
            (mkStroke { userId := none, payload := "A" } "u1"))))).flatten ∧
    (Adapter.step wasys (Op.draw 0 "sockab"
        { userId := none, payload := "A" })).2
      = (wasys.nodes.map (fun n =>
          (n.clients.filter (fun c => c.cid != "sockab")).map (fun c =>
            (c.cid, ClientMsg.draw
              (mkStroke { userId := none, payload := "A" } "u1"))))).flatten) :=
  claim_draw_fanout wsysR wasys 0 0 "sockab" "sockab" "u1" "u1"
    { userId := none, payload := "A" } { userId := none, payload := "A" }
    (by rfl) (by rfl)
